import Mathlib

/-!
# Verification of the SurfacePlot repository's specification

Shallow embedding of the core model/controller code of the SurfacePlot
application (`surfaceplot/models/interpolate.py`, `surfaceplot/models/export.py`,
`surfaceplot/views/graph_items.py`, `surfaceplot/controllers/main_ctrl.py`)
and proofs of the testable properties stated in its specification.

Strings are modelled as `List Char`; real numbers as `ℚ` (the numeric payloads
of the third-party interpolation routine are outside the spec's scope, and the
claims under verification only concern shapes, error behaviour and bookkeeping,
all of which are exact).  Python exceptions are modelled by an explicit error
type; every modelled operation is a total Lean function returning either a
value or an error, so "raises" means "returns this error value".
-/

namespace SurfacePlot

/-- Python exceptions that the modelled code can raise.
`notCsvError` is `interpolate.NotCsvError`; `qhullError` is
`scipy.spatial.qhull.QhullError`; `valueError` carries the exception message. -/
inductive PyError where
  | notCsvError
  | indexError
  | valueError (msg : String)
  | qhullError
  | fileNotFoundError
  | attributeError
deriving DecidableEq, Repr

/-! ## export.py : filename sanitisation (`replace_string`) -/

/-- The character class of `NOT_USED_STRING = r'[\\/:*?"<>|]+'` in export.py:
characters illegal in filenames. -/
def isIllegalChar (c : Char) : Bool :=
  c = '\\' || c = '/' || c = ':' || c = '*' || c = '?' || c = '"' ||
  c = '<' || c = '>' || c = '|'

/-- Operational rendering of `re.sub(r'[\\/:*?"<>|]+', '-', s)`:
scan the string, emitting `'-'` at the start of each maximal run of
illegal characters (the regex `+` makes a whole run one match).
`prevIllegal` records whether the previous character was part of a run. -/
def replaceStringGo (prevIllegal : Bool) : List Char → List Char
  | [] => []
  | c :: rest =>
    if isIllegalChar c then
      (if prevIllegal then [] else ['-']) ++ replaceStringGo true rest
    else
      c :: replaceStringGo false rest

/-- `export.replace_string`: substitute each maximal run of characters
illegal in filenames by a single `'-'`. -/
def replace_string (s : List Char) : List Char := replaceStringGo false s

/-! ## export.py : the `Export` class -/

/-- The mutable attributes of `export.Export`. `_root_dir` is kept as the
path string (`Path` wrapping is bookkeeping only). -/
structure Export where
  _filename : Option (List Char)
  rootDir : Option (List Char)
deriving DecidableEq, Repr

/-- Filesystem effects the `Export` methods can perform.  The content of a
written file is the exported table (serialisation mechanics are outside the
spec's scope). -/
inductive FsAction where
  | mkdir (path : List Char)
  | writeFile (path : List Char) (content : List (List ℚ))
deriving DecidableEq, Repr

/-- Is an action a file write (as opposed to a directory creation)? -/
def FsAction.isWrite : FsAction → Bool
  | .writeFile _ _ => true
  | .mkdir _ => false

/-- A wall-clock instant at second resolution, as consumed by
`datetime.now().strftime(r'%y%m%d%H%M%S_')`. -/
structure DateTime where
  year : ℕ
  month : ℕ
  day : ℕ
  hour : ℕ
  minute : ℕ
  second : ℕ
deriving DecidableEq, Repr

/-- Zero-padded two-digit rendering of a field, as `strftime` produces. -/
def pad2 (n : ℕ) : List Char :=
  if n < 10 then '0' :: (Nat.toDigits 10 n) else Nat.toDigits 10 n

/-- `dt.datetime.now().strftime(r'%y%m%d%H%M%S_')`: a second-resolution
timestamp followed by an underscore. -/
def strftimeStamp (t : DateTime) : List Char :=
  pad2 (t.year % 100) ++ pad2 t.month ++ pad2 t.day ++
  pad2 t.hour ++ pad2 t.minute ++ pad2 t.second ++ ['_']

/-- `Export.check_root_dir_exists`, given an oracle `dirExists` for the state
of the filesystem: create the root directory when it is missing.
Only meaningful when `_root_dir` is set (the code dereferences it). -/
def checkRootDirExists (e : Export) (dirExists : List Char → Bool) :
    List FsAction :=
  match e.rootDir with
  | none => []
  | some rd => if dirExists rd then [] else [FsAction.mkdir rd]

/-- `Export.export_dataframe(data, suffix)`: silently return when the root
directory or the filename is unset; otherwise ensure the root directory
exists and write `<timestamp>_<filename><suffix>.csv` under it.
Returns the (unchanged) object state and the filesystem actions performed. -/
def export_dataframe (e : Export) (dirExists : List Char → Bool)
    (data : List (List ℚ)) (suffix : List Char) (now : DateTime) :
    Export × List FsAction :=
  match e.rootDir, e._filename with
  | some rd, some fn =>
    let mk := if dirExists rd then [] else [FsAction.mkdir rd]
    let filename := strftimeStamp now ++ fn ++ suffix ++ ('.' :: ['c', 's', 'v'])
    (e, mk ++ [FsAction.writeFile (rd ++ '/' :: filename) data])
  | _, _ => (e, [])

/-- `Export.export_ndarray(data, suffix)`: same precondition and naming as
`export_dataframe`, writing with `np.savetxt(..., delimiter=',')`. -/
def export_ndarray (e : Export) (dirExists : List Char → Bool)
    (data : List (List ℚ)) (suffix : List Char) (now : DateTime) :
    Export × List FsAction :=
  match e.rootDir, e._filename with
  | some rd, some fn =>
    let mk := if dirExists rd then [] else [FsAction.mkdir rd]
    let filename := strftimeStamp now ++ fn ++ suffix ++ ('.' :: ['c', 's', 'v'])
    (e, mk ++ [FsAction.writeFile (rd ++ '/' :: filename) data])
  | _, _ => (e, [])

/-- The `Export.filename` property setter: sanitise and store the name. -/
def filenameSetter (e : Export) (name : List Char) : Export :=
  { e with _filename := some (replace_string name) }

/-- `Export.set_root_dir(filename)`: as written in export.py, its body is
`self._filename = replace_string(filename)` — it assigns the *filename*
attribute and performs no filesystem action. -/
def setRootDir (e : Export) (filename : List Char) :
    Export × List FsAction :=
  ({ e with _filename := some (replace_string filename) }, [])

/-! ## interpolate.py : the data model -/

/-- A pandas `DataFrame` as produced by `pd.read_csv`: a column count and the
data rows (the header row is consumed by the parser; column labels are not
used positionally relevant code).  Rows of a parsed frame all have length
`ncols`; theorems that need this state it as a hypothesis. -/
structure DataFrame where
  ncols : ℕ
  rows : List (List ℚ)
deriving DecidableEq, Repr

/-- `df.iloc[:, -3:]` : positional column slice, clipped like a Python slice
(a frame with fewer than 3 columns is returned whole, not an error). -/
def ilocLast3 (df : DataFrame) : DataFrame :=
  ⟨min df.ncols 3, df.rows.map (fun r => r.drop (df.ncols - 3))⟩

/-- The values of positional column `j` of a frame (rows of a parsed frame
all have length `ncols`, so the default is never consulted in bounds). -/
def colVals (df : DataFrame) (j : ℕ) : List ℚ :=
  df.rows.map (fun r => r.getD j 0)

/-- `df.iloc[:, j]` for a nonnegative position `j`: scalar column access is
bounds-checked against the frame's column count and raises `IndexError`
out of range. -/
def ilocCol (df : DataFrame) (j : ℕ) : Except PyError (List ℚ) :=
  if j < df.ncols then .ok (colVals df j) else .error .indexError

/-- Total minimum of a list of rationals (`0` on the empty list, which the
modelled numpy reductions never reach). -/
def listMin : List ℚ → ℚ
  | [] => 0
  | a :: l => l.foldl min a

/-- Total maximum of a list of rationals. -/
def listMax : List ℚ → ℚ
  | [] => 0
  | a :: l => l.foldl max a

/-- `np.min` : raises `ValueError` on a zero-size array. -/
def npMin (l : List ℚ) : Except PyError ℚ :=
  match l with
  | [] => .error (.valueError "zero-size array to reduction operation")
  | _ :: _ => .ok (listMin l)

/-- `np.max` : raises `ValueError` on a zero-size array. -/
def npMax (l : List ℚ) : Except PyError ℚ :=
  match l with
  | [] => .error (.valueError "zero-size array to reduction operation")
  | _ :: _ => .ok (listMax l)

/-- `np.linspace(a, b, num)` over exact rationals: `num` evenly spaced samples
whose first element is `a` and (for `num ≥ 2`) whose last element is `b`. -/
def linspace (a b : ℚ) (num : ℕ) : List ℚ :=
  if num = 0 then []
  else if num = 1 then [a]
  else (List.range num).map (fun (i : ℕ) => a + (i : ℚ) * (b - a) / ((num - 1 : ℕ) : ℚ))

/-- `np.meshgrid(xs, ys)`: the pair (x-grid, y-grid), both of shape
`(len ys, len xs)`; each x-grid row repeats `xs`, each y-grid row is the
constant row of the corresponding `ys` entry. -/
def meshgrid (xs ys : List ℚ) : List (List ℚ) × List (List ℚ) :=
  (ys.map (fun _ => xs), ys.map (fun yv => xs.map (fun _ => yv)))

/-- The mutable attributes of `interpolate.InterpolatedImage`. -/
structure InterpolatedImage where
  resolution : ℕ
  original_data : Option DataFrame
  x_grid : Option (List (List ℚ))
  y_grid : Option (List (List ℚ))
deriving DecidableEq, Repr

/-- `InterpolatedImage.make_xy_grid`: from columns 0 and 1 of the loaded data,
build `len(set(col)) * resolution` evenly spaced samples spanning the observed
min/max of each column and mesh them.  Accessing `original_data` when it is
`None` is Python's `AttributeError`. -/
def make_xy_grid (st : InterpolatedImage) : Except PyError InterpolatedImage := do
  match st.original_data with
  | none => .error .attributeError
  | some df =>
    let x ← ilocCol df 0
    let xmin ← npMin x
    let xmax ← npMax x
    let y ← ilocCol df 1
    let ymin ← npMin y
    let ymax ← npMax y
    let resolvedX := linspace xmin xmax (x.dedup.length * st.resolution)
    let resolvedY := linspace ymin ymax (y.dedup.length * st.resolution)
    let g := meshgrid resolvedX resolvedY
    .ok { st with x_grid := some g.1, y_grid := some g.2 }

/-- Are all the (2-D) points of the list on a single line?  A point is the
first two entries of a row; degenerate for Delaunay triangulation exactly
when every triple has zero cross product (this also covers fewer than
three distinct points). -/
def collinear (pts : List (List ℚ)) : Bool :=
  pts.all fun p => pts.all fun q => pts.all fun r =>
    (q.getD 0 0 - p.getD 0 0) * (r.getD 1 0 - p.getD 1 0) -
    (q.getD 1 0 - p.getD 1 0) * (r.getD 0 0 - p.getD 0 0) = 0

/-- Modelled from the spec: `scipy.interpolate.griddata` is an external
routine "treated as an opaque library call with a documented contract".
Its contract, as the spec documents it: for the triangulation-based methods
(`linear`, `cubic`) it raises `QhullError` exactly when the point set is
degenerate (e.g. all points collinear); `nearest` does not triangulate and
raises no such error.  Where it succeeds, the interpolated numeric values
are out of the spec's scope and are abstracted to zeros of the shape of the
sampling grid. -/
def griddata (pts : List (List ℚ)) (_vals : List ℚ)
    (xi : List (List ℚ) × List (List ℚ)) (method : List Char) :
    Except PyError (List (List ℚ)) :=
  if (method = ['l', 'i', 'n', 'e', 'a', 'r'] ∨ method = ['c', 'u', 'b', 'i', 'c'])
      ∧ collinear pts then
    .error .qhullError
  else
    .ok (xi.1.map (fun row => row.map (fun _ => 0)))

/-- `InterpolatedImage.calc_griddata(method)`: feed all-but-the-last columns
as known points and the last column as known values to `griddata` over the
stored sampling grid; a `QhullError` is caught and re-raised as
`ValueError('補間画像を作成できません.')`. -/
def calc_griddata (st : InterpolatedImage) (method : List Char) :
    Except PyError (List (List ℚ)) :=
  match st.original_data with
  | none => .error .attributeError
  | some df =>
    let knew_points := df.rows.map (fun r => r.take (df.ncols - 1))
    let knew_values := df.rows.map (fun r => r.getD (df.ncols - 1) 0)
    let xi := (st.x_grid.getD [], st.y_grid.getD [])
    match griddata knew_points knew_values xi method with
    | .error .qhullError => .error (.valueError "補間画像を作成できません.")
    | .error e => .error e
    | .ok img => .ok img

/-- `InterpolatedImage.get_coord_range(axis)`: `ValueError` on any token other
than `'x'`/`'y'` (checked before the data is touched); otherwise the
(min, max) of column 0 (for `'x'`) or column 1 (for `'y'`). -/
def get_coord_range (st : InterpolatedImage) (axis : List Char) :
    Except PyError (ℚ × ℚ) := do
  if axis ≠ ['x'] ∧ axis ≠ ['y'] then .error (.valueError "")
  else
    match st.original_data with
    | none => .error .attributeError
    | some df =>
      if axis = ['x'] then
        let c ← ilocCol df 0
        let mn ← npMin c
        let mx ← npMax c
        .ok (mn, mx)
      else
        let c ← ilocCol df 1
        let mn ← npMin c
        let mx ← npMax c
        .ok (mn, mx)

/-! ## interpolate.py : file loading (`set_filepath`)

`set_filepath` first massages the path with `repr(filepath).replace("'", "")`
and then tests `Path(...).suffix != '.csv'`.  Both are modelled character by
character: `pyRepr` renders Python's `repr` of a string of printable
characters (quote selection and backslash/quote escaping), and `pathSuffix`
renders `pathlib.PurePath.suffix` (the part of the final path component from
its last dot, empty when the dot is leading or trailing or absent). -/

/-- One character of the body of Python's `repr` of a string: a backslash is
doubled; inside a single-quoted repr an apostrophe is escaped. -/
def reprEscape (inSingle : Bool) (c : Char) : List Char :=
  if c = '\\' then ['\\', '\\']
  else if inSingle && c = '\'' then ['\\', '\'']
  else [c]

/-- Python's `repr` of a string: double-quoted when the string contains an
apostrophe but no double quote, single-quoted (escaping apostrophes)
otherwise. -/
def pyRepr (s : List Char) : List Char :=
  if s.contains '\'' && !s.contains '"' then
    '"' :: (s.flatMap (reprEscape false) ++ ['"'])
  else
    '\'' :: (s.flatMap (reprEscape true) ++ ['\''])

/-- `.replace("'", "")`: drop every apostrophe. -/
def stripApostrophes (s : List Char) : List Char :=
  s.filter (fun c => c ≠ '\'')

/-- The composite `repr(filepath).replace("'", "")` from `set_filepath`. -/
def pyPathTransform (s : List Char) : List Char :=
  stripApostrophes (pyRepr s)

/-- `pathlib.PurePath(s).suffix`: take the final path component (after the
last separator), find its last dot; the suffix runs from that dot, and is
empty when there is no dot or the dot is the component's first or last
character. -/
def pathSuffix (s : List Char) : List Char :=
  let rname := s.reverse.takeWhile (fun c => c ≠ '/')
  let pre := rname.takeWhile (fun c => c ≠ '.')
  if pre.length = 0 ∨ rname.length ≤ pre.length + 1 then []
  else '.' :: pre.reverse

/-- `InterpolatedImage.set_filepath(filepath)`, with file reading abstracted
as an oracle `reader` from the massaged path to the parsed frame
(`pd.read_csv`; `none` models an unreadable/missing file).  Mutations happen
in source order: on `NotCsvError` nothing is assigned; once the csv is read,
`original_data` is set to the last-3-columns slice *before* `make_xy_grid`
runs, so a failure inside `make_xy_grid` leaves the grids unset but the data
replaced.  Returns the final state and the exception, if any. -/
def set_filepath (st : InterpolatedImage)
    (reader : List Char → Option DataFrame) (filepath : List Char) :
    InterpolatedImage × Option PyError :=
  let t := pyPathTransform filepath
  if pathSuffix t ≠ ['.', 'c', 's', 'v'] then (st, some .notCsvError)
  else
    match reader t with
    | none => (st, some .fileNotFoundError)
    | some df =>
      let st1 := { st with original_data := some (ilocLast3 df) }
      match make_xy_grid st1 with
      | .error e => (st1, some e)
      | .ok st2 => (st2, none)

/-! ## graph_items.py : the image axis classes

`XImageAxis` and `YImageAxis` hold, as class-level state, a pixel extent
`points` (default 1), a data range `range_` (default `(0.0, 1.0)`) and the
conversion coefficient `coe = (range_[1] - range_[0]) / points` (default 1).
The two classes are textually identical in these members (only the axis
orientation differs), so a single state type models both. -/

structure ImageAxis where
  points : ℕ
  range_ : ℚ × ℚ
  coe : ℚ
deriving DecidableEq, Repr

/-- The class-attribute defaults `points = 1`, `range_ = (0.0, 1.0)`,
`coe = 1`. -/
def imageAxisInit : ImageAxis := ⟨1, (0, 1), 1⟩

/-- `change_data_range(range_)`: store the new data range and recompute the
coefficient against the current pixel extent. -/
def change_data_range (ax : ImageAxis) (r : ℚ × ℚ) : ImageAxis :=
  ⟨ax.points, r, (r.2 - r.1) / (ax.points : ℚ)⟩

/-- `XImageAxis.change_x_size(points)` / `YImageAxis.change_y_size(points)`
(textually identical): store the new pixel extent and recompute the
coefficient against the current data range. -/
def change_size (ax : ImageAxis) (points : ℕ) : ImageAxis :=
  ⟨points, ax.range_, (ax.range_.2 - ax.range_.1) / (points : ℚ)⟩

/-- The index-to-real-coordinate conversion performed by `tickStrings`:
`coe * value + range_[0]` (the formatting to three decimals is display
bookkeeping and not modelled). -/
def to_real (ax : ImageAxis) (index : ℚ) : ℚ :=
  ax.coe * index + ax.range_.1

/-- An update to the axis class state, in either direction. -/
inductive AxisEvent where
  | setRange (r : ℚ × ℚ)
  | setSize (points : ℕ)
deriving DecidableEq, Repr

/-- Apply one update. -/
def axisStep (ax : ImageAxis) : AxisEvent → ImageAxis
  | .setRange r => change_data_range ax r
  | .setSize p => change_size ax p

/-- The axis state after a sequence of updates starting from the class
defaults. -/
def axisRun (evs : List AxisEvent) : ImageAxis :=
  evs.foldl axisStep imageAxisInit

/-- Does an event pass a pixel extent of at least one?  Range updates
trivially do; callers obtain size updates from the shape of a displayed
image, which has at least one pixel per axis. -/
def AxisEvent.sizeGeOne : AxisEvent → Prop
  | .setRange _ => True
  | .setSize p => 1 ≤ p

/-! ## main_ctrl.py : the controller -/

/-- The controller state relevant to the interpolation claims: the module
level `interpolate` model object and the image currently displayed by
`ui.surface_plot`. -/
structure MainWindowState where
  interp : InterpolatedImage
  displayed_image : Option (List (List ℚ))
deriving DecidableEq, Repr

/-- `MainWindow.change_interpolate_method(method)`: return immediately when
no data is loaded; otherwise recompute the field with the new method via
`calc_griddata` (the sampling grid is not rebuilt) and replace the displayed
image (`set_image`; its axis/color-bar side effects are view bookkeeping and
not modelled).  An exception from `calc_griddata` is not caught here and
propagates, leaving the display unchanged. -/
def change_interpolate_method (st : MainWindowState) (method : List Char) :
    MainWindowState × Option PyError :=
  match st.interp.original_data with
  | none => (st, none)
  | some _ =>
    match calc_griddata st.interp method with
    | .error e => (st, some e)
    | .ok image => ({ st with displayed_image := some image }, none)

/-! ## Helper lemmas about `replace_string` -/

/-- A prefix free of illegal characters passes through the sanitiser. -/
lemma replaceStringGo_clean (u w : List Char)
    (hu : ∀ c ∈ u, isIllegalChar c = false) :
    replaceStringGo false (u ++ w) = u ++ replaceStringGo false w := by
  induction u with
  | nil => rfl
  | cons c u ih =>
    have hc : isIllegalChar c = false := hu c (List.mem_cons_self c u)
    have hu' : ∀ d ∈ u, isIllegalChar d = false :=
      fun d hd => hu d (List.mem_cons_of_mem c hd)
    simp [replaceStringGo, hc, ih hu']

/-- Inside a run, further illegal characters are absorbed. -/
lemma replaceStringGo_absorb (r w : List Char)
    (hr : ∀ c ∈ r, isIllegalChar c = true) :
    replaceStringGo true (r ++ w) = replaceStringGo true w := by
  induction r with
  | nil => rfl
  | cons c r ih =>
    have hc : isIllegalChar c = true := hr c (List.mem_cons_self c r)
    have hr' : ∀ d ∈ r, isIllegalChar d = true :=
      fun d hd => hr d (List.mem_cons_of_mem c hd)
    simp [replaceStringGo, hc, ih hr']

/-- After a run ends (the next character, if any, is legal), the
run-tracking flag is irrelevant. -/
lemma replaceStringGo_reset (v : List Char)
    (hv : ∀ c ∈ v.take 1, isIllegalChar c = false) :
    replaceStringGo true v = replaceStringGo false v := by
  cases v with
  | nil => rfl
  | cons c t =>
    have hc : isIllegalChar c = false := hv c (by simp)
    simp [replaceStringGo, hc]

/-- C10: `Export.set_root_dir(s)` leaves `_root_dir` unchanged and performs no
filesystem action (in particular it creates no directory); instead it stores
the sanitised form of `s` into `_filename`, behaving exactly like the
`filename` property setter. -/
theorem setRootDir_is_filename_setter (e : Export) (s : List Char) :
    (setRootDir e s).1 = filenameSetter e s ∧
    (setRootDir e s).1.rootDir = e.rootDir ∧
    (setRootDir e s).2 = [] :=
  ⟨rfl, rfl, rfl⟩

/-- C5 (counterexample): the claim says runs of illegal characters are not
collapsed, so `a//b` would map to `a--b`; in fact `replace_string` maps
`a//b` to `a-b` (the regex quantifier `+` matches the whole run). -/
theorem replace_string_collapses_runs :
    replace_string ['a', '/', '/', 'b'] = ['a', '-', 'b'] ∧
    replace_string ['a', '/', '/', 'b'] ≠ ['a', '-', '-', 'b'] := by
  constructor
  · rfl
  · decide

/-- C5 (amended): `replace_string` substitutes illegal filename characters
(`\ / : * ? " < > |`) with `'-'`, each *maximal run* of consecutive illegal
characters collapsing to a single replacement; isolated illegal characters
are still replaced individually, so `a/b:c*d` maps to `a-b-c-d`. -/
theorem replace_string_spec (u r v : List Char)
    (hu : ∀ c ∈ u, isIllegalChar c = false)
    (hr : r ≠ [])
    (hrall : ∀ c ∈ r, isIllegalChar c = true)
    (hv : ∀ c ∈ v.take 1, isIllegalChar c = false) :
    replace_string (u ++ r ++ v) = u ++ '-' :: replace_string v ∧
    replace_string ['a', '/', 'b', ':', 'c', '*', 'd'] =
      ['a', '-', 'b', '-', 'c', '-', 'd'] := by
  constructor
  · unfold replace_string
    rw [List.append_assoc, replaceStringGo_clean u (r ++ v) hu]
    cases r with
    | nil => exact absurd rfl hr
    | cons c r' =>
      have hc : isIllegalChar c = true := hrall c (List.mem_cons_self c r')
      have hr' : ∀ d ∈ r', isIllegalChar d = true :=
        fun d hd => hrall d (List.mem_cons_of_mem c hd)
      simp [replaceStringGo, hc, replaceStringGo_absorb r' v hr',
        replaceStringGo_reset v hv]
  · rfl

/-- C5 (witness for the amended claim): the run `//` inside `a//b` collapses
to a single `-`. -/
theorem replace_string_spec_witness :
    replace_string (['a'] ++ ['/', '/'] ++ ['b']) = ['a'] ++ '-' :: replace_string ['b'] ∧
    replace_string ['a', '/', 'b', ':', 'c', '*', 'd'] =
      ['a', '-', 'b', '-', 'c', '-', 'd'] :=
  replace_string_spec ['a'] ['/', '/'] ['b']
    (by decide) (by decide) (by decide) (by decide)

/-- C6: when the root directory or the filename is unset, `export_dataframe`
and `export_ndarray` perform no filesystem action, raise nothing (they are
total and return normally) and leave the object state unchanged; when both
are set they perform exactly one file write, whose target is
`<root>/<timestamp>_<name><suffix>.csv` with the timestamp taken from the
second-resolution clock reading. -/
theorem export_noop_or_single_write (e : Export) (dirExists : List Char → Bool)
    (data : List (List ℚ)) (suffix : List Char) (now : DateTime) :
    ((e.rootDir = none ∨ e._filename = none) →
      export_dataframe e dirExists data suffix now = (e, []) ∧
      export_ndarray e dirExists data suffix now = (e, [])) ∧
    (∀ rd fn, e.rootDir = some rd → e._filename = some fn →
      (export_dataframe e dirExists data suffix now).1 = e ∧
      (export_dataframe e dirExists data suffix now).2.filter FsAction.isWrite =
        [FsAction.writeFile
          (rd ++ '/' :: (strftimeStamp now ++ fn ++ suffix ++ ['.', 'c', 's', 'v'])) data] ∧
      (export_ndarray e dirExists data suffix now).1 = e ∧
      (export_ndarray e dirExists data suffix now).2.filter FsAction.isWrite =
        [FsAction.writeFile
          (rd ++ '/' :: (strftimeStamp now ++ fn ++ suffix ++ ['.', 'c', 's', 'v'])) data]) := by
  constructor
  · intro hunset
    rcases hunset with hrd | hfn
    · exact ⟨by simp [export_dataframe, hrd], by simp [export_ndarray, hrd]⟩
    · cases hrd : e.rootDir with
      | none => exact ⟨by simp [export_dataframe, hrd], by simp [export_ndarray, hrd]⟩
      | some rd =>
        exact ⟨by simp [export_dataframe, hrd, hfn], by simp [export_ndarray, hrd, hfn]⟩
  · intro rd fn hrd hfn
    refine ⟨?_, ?_, ?_, ?_⟩
    · simp only [export_dataframe, hrd, hfn]
    · simp only [export_dataframe, hrd, hfn]
      cases hex : dirExists rd <;> simp [FsAction.isWrite]
    · simp only [export_ndarray, hrd, hfn]
    · simp only [export_ndarray, hrd, hfn]
      cases hex : dirExists rd <;> simp [FsAction.isWrite]

/-- C6 (witness): with root `/out` and filename `data` set, exporting at
2024-05-06 07:08:09 writes exactly `/out/240506070809_data_image.csv`; with
the filename unset nothing happens. -/
theorem export_noop_or_single_write_witness :
    (((Export.mk none (some ['/', 'o'])).rootDir = none ∨
        (Export.mk none (some ['/', 'o']))._filename = none) ∧
      export_dataframe (Export.mk none (some ['/', 'o'])) (fun _ => true) [[1]]
        ['_', 's'] (DateTime.mk 2024 5 6 7 8 9) = (Export.mk none (some ['/', 'o']), [])) ∧
    (export_dataframe (Export.mk (some ['d']) (some ['/', 'o'])) (fun _ => true) [[1]]
        ['_', 's'] (DateTime.mk 2024 5 6 7 8 9)).2.filter FsAction.isWrite =
      [FsAction.writeFile
        (['/', 'o'] ++ '/' :: (strftimeStamp (DateTime.mk 2024 5 6 7 8 9) ++ ['d'] ++
          ['_', 's'] ++ ['.', 'c', 's', 'v'])) [[1]]] := by
  constructor
  · exact ⟨Or.inr rfl,
      ((export_noop_or_single_write (Export.mk none (some ['/', 'o'])) (fun _ => true)
        [[1]] ['_', 's'] (DateTime.mk 2024 5 6 7 8 9)).1 (Or.inr rfl)).1⟩
  · exact ((export_noop_or_single_write (Export.mk (some ['d']) (some ['/', 'o']))
      (fun _ => true) [[1]] ['_', 's'] (DateTime.mk 2024 5 6 7 8 9)).2
      ['/', 'o'] ['d'] rfl rfl).2.1

/-! ## Sample data used by the witnesses -/

/-- A 3-column frame whose (x, y) points are not collinear. -/
def sampleDf3 : DataFrame := ⟨3, [[0, 0, 1], [1, 1, 2], [0, 1, 3]]⟩

/-- A 3-column frame whose three (x, y) points all lie on the line y = x. -/
def collinearDf3 : DataFrame := ⟨3, [[0, 0, 1], [1, 1, 2], [2, 2, 3]]⟩

/-- A loaded model state over `sampleDf3`. -/
def sampleInterp : InterpolatedImage :=
  ⟨1, some sampleDf3, some [[0, 0]], some [[0, 0]]⟩

/-- A loaded model state over `collinearDf3`. -/
def collinearInterp : InterpolatedImage :=
  ⟨1, some collinearDf3, some [[0, 0]], some [[0, 0]]⟩

/-! ## Claim theorems: controller and model behaviour -/

/-- C7: `MainWindow.change_interpolate_method` performs no computation and no
state change when no file is loaded; when a file is loaded it leaves the
whole `InterpolatedImage` (in particular `x_grid` and `y_grid`) unchanged,
recomputes the field with the new method via `calc_griddata`, and replaces
the displayed image with the result (an interpolation error propagates and
leaves the display unchanged). -/
theorem change_interpolate_method_frame (st : MainWindowState) (method : List Char) :
    (st.interp.original_data = none → change_interpolate_method st method = (st, none)) ∧
    (∀ df, st.interp.original_data = some df →
      (change_interpolate_method st method).1.interp = st.interp ∧
      (∀ img, calc_griddata st.interp method = .ok img →
        change_interpolate_method st method = ({ st with displayed_image := some img }, none)) ∧
      (∀ e, calc_griddata st.interp method = .error e →
        change_interpolate_method st method = (st, some e))) := by
  constructor
  · intro h
    simp [change_interpolate_method, h]
  · intro df h
    refine ⟨?_, ?_, ?_⟩
    · simp only [change_interpolate_method, h]
      cases hc : calc_griddata st.interp method <;> simp
    · intro img himg
      simp [change_interpolate_method, h, himg]
    · intro e he
      simp [change_interpolate_method, h, he]

/-- C7 (witness): on the loaded sample state, switching to `nearest`
recomputes and displays the field and leaves the model (grids included)
untouched; on an unloaded state nothing happens. -/
theorem change_interpolate_method_frame_witness :
    change_interpolate_method ⟨sampleInterp, none⟩ ['n', 'e', 'a', 'r', 'e', 's', 't'] =
      ({ MainWindowState.mk sampleInterp none with displayed_image := some [[0, 0]] }, none) ∧
    change_interpolate_method ⟨⟨10, none, none, none⟩, none⟩ ['c', 'u', 'b', 'i', 'c'] =
      (⟨⟨10, none, none, none⟩, none⟩, none) :=
  ⟨((change_interpolate_method_frame ⟨sampleInterp, none⟩
        ['n', 'e', 'a', 'r', 'e', 's', 't']).2 sampleDf3 rfl).2.1 [[0, 0]] rfl,
    (change_interpolate_method_frame ⟨⟨10, none, none, none⟩, none⟩
        ['c', 'u', 'b', 'i', 'c']).1 rfl⟩

/-- C9: on a loaded point set, `get_coord_range 'x'` returns (min, max) of
column 0 of the original data and `get_coord_range 'y'` (min, max) of
column 1; any other axis token yields `ValueError` on *every* state — the
token is checked before the data is touched. -/
theorem get_coord_range_spec (st : InterpolatedImage) (df : DataFrame)
    (h : st.original_data = some df) (hc : 2 ≤ df.ncols) (hr : df.rows ≠ []) :
    get_coord_range st ['x'] = .ok (listMin (colVals df 0), listMax (colVals df 0)) ∧
    get_coord_range st ['y'] = .ok (listMin (colVals df 1), listMax (colVals df 1)) ∧
    ∀ (st' : InterpolatedImage) (axis : List Char), axis ≠ ['x'] → axis ≠ ['y'] →
      get_coord_range st' axis = .error (.valueError "") := by
  have h0 : 0 < df.ncols := lt_of_lt_of_le (by norm_num) hc
  have h1 : 1 < df.ncols := lt_of_lt_of_le (by norm_num) hc
  obtain ⟨a, t, hx⟩ := List.exists_cons_of_ne_nil
    (show colVals df 0 ≠ [] by simpa [colVals] using hr)
  obtain ⟨b, u, hy⟩ := List.exists_cons_of_ne_nil
    (show colVals df 1 ≠ [] by simpa [colVals] using hr)
  refine ⟨?_, ?_, ?_⟩
  · rw [get_coord_range, if_neg (by decide), h]
    simp [ilocCol, h0, hx, npMin, npMax, bind, Except.bind]
  · rw [get_coord_range, if_neg (by decide), h]
    simp [ilocCol, h1, hy, npMin, npMax, bind, Except.bind]
  · intro st' axis hax hay
    rw [get_coord_range, if_pos ⟨hax, hay⟩]

/-- C9 (witness): on the loaded sample state, the x range is (0, 1), the y
range is (0, 1), and the token `'z'` yields `ValueError`. -/
theorem get_coord_range_spec_witness :
    get_coord_range sampleInterp ['x'] =
      .ok (listMin (colVals sampleDf3 0), listMax (colVals sampleDf3 0)) ∧
    get_coord_range sampleInterp ['y'] =
      .ok (listMin (colVals sampleDf3 1), listMax (colVals sampleDf3 1)) ∧
    get_coord_range ⟨10, none, none, none⟩ ['z'] = .error (.valueError "") := by
  obtain ⟨hx, hy, hbad⟩ :=
    get_coord_range_spec sampleInterp sampleDf3 rfl (by norm_num [sampleDf3]) (by decide)
  exact ⟨hx, hy, hbad ⟨10, none, none, none⟩ ['z'] (by decide) (by decide)⟩

/-- C2: on a loaded point set, `calc_griddata` yields the domain error — a
`ValueError` carrying the message `補間画像を作成できません.` ("cannot build
interpolated image") — exactly when the underlying triangulation fails,
i.e. when the method is one of the triangulation-based `linear`/`cubic` and
the known points are degenerate (collinear); with `nearest` no such failure
occurs.  The failure is an ordinary value of the error type (a catchable
exception), never a crash: every run is either a result or that error. -/
theorem calc_griddata_domain_error (st : InterpolatedImage) (df : DataFrame)
    (h : st.original_data = some df) (method : List Char) :
    (calc_griddata st method = .error (.valueError "補間画像を作成できません.") ↔
      ((method = ['l', 'i', 'n', 'e', 'a', 'r'] ∨ method = ['c', 'u', 'b', 'i', 'c']) ∧
        collinear (df.rows.map (fun r => r.take (df.ncols - 1))) = true)) ∧
    ((∃ img, calc_griddata st method = .ok img) ∨
      calc_griddata st method = .error (.valueError "補間画像を作成できません.")) := by
  by_cases hcond :
      (method = ['l', 'i', 'n', 'e', 'a', 'r'] ∨ method = ['c', 'u', 'b', 'i', 'c']) ∧
        collinear (df.rows.map (fun r => r.take (df.ncols - 1))) = true
  · constructor
    · simp [calc_griddata, h, griddata, hcond]
    · right
      simp [calc_griddata, h, griddata, hcond]
  · constructor
    · simp [calc_griddata, h, griddata, hcond]
    · left
      refine ⟨((st.x_grid.getD []).map (fun row => row.map (fun _ => 0))), ?_⟩
      simp [calc_griddata, h, griddata, hcond]

/-- C2 (witness): on three collinear points, `cubic` raises the domain error
and `nearest` does not. -/
theorem calc_griddata_domain_error_witness :
    calc_griddata collinearInterp ['c', 'u', 'b', 'i', 'c'] =
      .error (.valueError "補間画像を作成できません.") ∧
    calc_griddata collinearInterp ['n', 'e', 'a', 'r', 'e', 's', 't'] ≠
      .error (.valueError "補間画像を作成できません.") := by
  constructor
  · exact (calc_griddata_domain_error collinearInterp collinearDf3 rfl
      ['c', 'u', 'b', 'i', 'c']).1.mpr ⟨Or.inr rfl, by norm_num [collinear, collinearDf3]⟩
  · intro herr
    exact absurd ((calc_griddata_domain_error collinearInterp collinearDf3 rfl
      ['n', 'e', 'a', 'r', 'e', 's', 't']).1.mp herr).1 (by decide)

/-- Invariant of the axis class state under updates: the pixel extent stays
positive (each size update passes a positive extent) and the cached
coefficient always equals `(range_max - range_min) / points`. -/
lemma axis_fold_invariant (evs : List AxisEvent) (ax : ImageAxis)
    (hp : 1 ≤ ax.points)
    (hcoe : ax.coe = (ax.range_.2 - ax.range_.1) / (ax.points : ℚ))
    (hev : ∀ ev ∈ evs, ev.sizeGeOne) :
    1 ≤ (evs.foldl axisStep ax).points ∧
    (evs.foldl axisStep ax).coe =
      ((evs.foldl axisStep ax).range_.2 - (evs.foldl axisStep ax).range_.1) /
        ((evs.foldl axisStep ax).points : ℚ) := by
  induction evs generalizing ax with
  | nil => exact ⟨hp, hcoe⟩
  | cons ev rest ih =>
    have h1 := hev ev (List.mem_cons_self ev rest)
    have h2 : ∀ e ∈ rest, e.sizeGeOne := fun e he => hev e (List.mem_cons_of_mem ev he)
    cases ev with
    | setRange r => exact ih (change_data_range ax r) hp rfl h2
    | setSize p => exact ih (change_size ax p) h1 rfl h2

/-- C8: starting from the class defaults (`points = 1`), after any sequence
of range/extent updates in any order whose extent arguments are at least 1
(extents come from displayed image shapes), the pixel extent is at least 1 —
so the conversion divides by a nonzero quantity — and the index-to-real
conversion computes `range_min + index * (range_max - range_min) / points`. -/
theorem image_axis_to_real (evs : List AxisEvent)
    (hev : ∀ ev ∈ evs, ev.sizeGeOne) :
    1 ≤ (axisRun evs).points ∧
    ((axisRun evs).points : ℚ) ≠ 0 ∧
    ∀ index : ℚ, to_real (axisRun evs) index =
      (axisRun evs).range_.1 +
        index * ((axisRun evs).range_.2 - (axisRun evs).range_.1) /
          ((axisRun evs).points : ℚ) := by
  obtain ⟨hp, hcoe⟩ := axis_fold_invariant evs imageAxisInit (le_refl 1)
    (by norm_num [imageAxisInit]) hev
  refine ⟨hp, ?_, ?_⟩
  · exact_mod_cast Nat.one_le_iff_ne_zero.mp hp
  · intro index
    rw [to_real, axisRun, hcoe]
    ring

/-- C8 (witness): setting the extent to 2 and then the range to (0, 10) —
and in particular updating in this order, extent before range — leaves the
extent positive and converts index 3 to 0 + 3·(10 − 0)/2. -/
theorem image_axis_to_real_witness :
    1 ≤ (axisRun [AxisEvent.setSize 2, AxisEvent.setRange (0, 10)]).points ∧
    to_real (axisRun [AxisEvent.setSize 2, AxisEvent.setRange (0, 10)]) 3 =
      (axisRun [AxisEvent.setSize 2, AxisEvent.setRange (0, 10)]).range_.1 +
        3 * ((axisRun [AxisEvent.setSize 2, AxisEvent.setRange (0, 10)]).range_.2 -
          (axisRun [AxisEvent.setSize 2, AxisEvent.setRange (0, 10)]).range_.1) /
          ((axisRun [AxisEvent.setSize 2, AxisEvent.setRange (0, 10)]).points : ℚ) := by
  have h : ∀ ev ∈ [AxisEvent.setSize 2, AxisEvent.setRange ((0 : ℚ), (10 : ℚ))],
      ev.sizeGeOne := by
    intro ev hev
    simp only [List.mem_cons, List.not_mem_nil, or_false] at hev
    rcases hev with rfl | rfl
    · norm_num [AxisEvent.sizeGeOne]
    · exact trivial
  obtain ⟨h1, -, h3⟩ := image_axis_to_real [AxisEvent.setSize 2, AxisEvent.setRange (0, 10)] h
  exact ⟨h1, h3 3⟩

/-! ## C1: shape and spacing of the sampling grid -/

/-- The spec's notion of a list of samples "evenly spaced between min and
max": it starts at `lo`, ends at `hi` (when it has at least two entries) and
all consecutive gaps equal `(hi - lo) / (length - 1)`. -/
def evenlySpaced (l : List ℚ) (lo hi : ℚ) : Prop :=
  l.getD 0 0 = lo ∧
  (2 ≤ l.length → l.getD (l.length - 1) 0 = hi) ∧
  ∀ j, j + 1 < l.length →
    l.getD (j + 1) 0 - l.getD j 0 = (hi - lo) / ((l.length - 1 : ℕ) : ℚ)

lemma linspace_length (a b : ℚ) (num : ℕ) : (linspace a b num).length = num := by
  match num with
  | 0 => rfl
  | 1 => rfl
  | (n + 2) => simp [linspace]

lemma linspace_getD (a b : ℚ) (num j : ℕ) (h2 : 2 ≤ num) (hj : j < num) :
    (linspace a b num).getD j 0 = a + (j : ℚ) * (b - a) / ((num - 1 : ℕ) : ℚ) := by
  have hn0 : num ≠ 0 := by omega
  have hn1 : num ≠ 1 := by omega
  rw [linspace, if_neg hn0, if_neg hn1,
    List.getD_eq_getElem _ _ (by simpa using hj)]
  simp

lemma linspace_evenlySpaced (a b : ℚ) (num : ℕ) (h : 1 ≤ num) :
    evenlySpaced (linspace a b num) a b := by
  rcases eq_or_lt_of_le h with h1 | h2
  · have hnum : num = 1 := h1.symm
    subst hnum
    refine ⟨by simp [linspace], ?_, ?_⟩
    · intro hlen
      rw [linspace_length] at hlen
      omega
    · intro j hj
      rw [linspace_length] at hj
      omega
  · have h2' : 2 ≤ num := h2
    have hlen : (linspace a b num).length = num := linspace_length a b num
    have hd : ((num - 1 : ℕ) : ℚ) ≠ 0 := Nat.cast_ne_zero.mpr (by omega)
    refine ⟨?_, ?_, ?_⟩
    · rw [linspace_getD a b num 0 h2' (by omega)]
      simp
    · intro _
      rw [hlen, linspace_getD a b num (num - 1) h2' (by omega),
        mul_div_cancel_left₀ _ hd]
      ring
    · intro j hj
      rw [hlen] at hj
      rw [hlen, linspace_getD a b num (j + 1) h2' hj,
        linspace_getD a b num j h2' (by omega)]
      push_cast
      ring

/-- C1: on any loaded point set with `k` distinct x values and `m` distinct
y values and any resolution `n` in 1..100, `make_xy_grid` succeeds and
produces `x_grid` and `y_grid` of shape `(m·n, k·n)`; every `x_grid` row
consists of `k·n` x samples evenly spaced between the observed x min and
max, and the `y_grid` column holds `m·n` y samples evenly spaced between
the observed y min and max. -/
theorem make_xy_grid_shape (st : InterpolatedImage) (df : DataFrame)
    (h : st.original_data = some df) (hr : df.rows ≠ []) (hc : 2 ≤ df.ncols)
    (hn1 : 1 ≤ st.resolution) (hn2 : st.resolution ≤ 100) :
    ∃ xg yg,
      make_xy_grid st = .ok { st with x_grid := some xg, y_grid := some yg } ∧
      xg.length = (colVals df 1).dedup.length * st.resolution ∧
      yg.length = (colVals df 1).dedup.length * st.resolution ∧
      (∀ row ∈ xg, row.length = (colVals df 0).dedup.length * st.resolution) ∧
      (∀ row ∈ yg, row.length = (colVals df 0).dedup.length * st.resolution) ∧
      (∀ row ∈ xg, evenlySpaced row (listMin (colVals df 0)) (listMax (colVals df 0))) ∧
      evenlySpaced (yg.map (fun row => row.getD 0 0))
        (listMin (colVals df 1)) (listMax (colVals df 1)) := by
  have h0 : 0 < df.ncols := by omega
  have h1 : 1 < df.ncols := by omega
  have hx0 : colVals df 0 ≠ [] := by simpa [colVals] using hr
  have hy0 : colVals df 1 ≠ [] := by simpa [colVals] using hr
  obtain ⟨a, t, hx⟩ := List.exists_cons_of_ne_nil hx0
  obtain ⟨b, u, hy⟩ := List.exists_cons_of_ne_nil hy0
  have hk : 1 ≤ (colVals df 0).dedup.length :=
    List.length_pos.mpr (fun hnil => hx0 ((List.dedup_eq_nil _).mp hnil))
  have hm : 1 ≤ (colVals df 1).dedup.length :=
    List.length_pos.mpr (fun hnil => hy0 ((List.dedup_eq_nil _).mp hnil))
  have hkn : 1 ≤ (colVals df 0).dedup.length * st.resolution :=
    Nat.one_le_iff_ne_zero.mpr (Nat.mul_ne_zero (by omega) (by omega))
  have hmn : 1 ≤ (colVals df 1).dedup.length * st.resolution :=
    Nat.one_le_iff_ne_zero.mpr (Nat.mul_ne_zero (by omega) (by omega))
  have hiloc0 : ilocCol df 0 = .ok (colVals df 0) := by rw [ilocCol, if_pos h0]
  have hiloc1 : ilocCol df 1 = .ok (colVals df 1) := by rw [ilocCol, if_pos h1]
  have hmin0 : npMin (colVals df 0) = .ok (listMin (colVals df 0)) := by rw [hx]; rfl
  have hmax0 : npMax (colVals df 0) = .ok (listMax (colVals df 0)) := by rw [hx]; rfl
  have hmin1 : npMin (colVals df 1) = .ok (listMin (colVals df 1)) := by rw [hy]; rfl
  have hmax1 : npMax (colVals df 1) = .ok (listMax (colVals df 1)) := by rw [hy]; rfl
  refine ⟨(linspace (listMin (colVals df 1)) (listMax (colVals df 1))
          ((colVals df 1).dedup.length * st.resolution)).map
        (fun _ => linspace (listMin (colVals df 0)) (listMax (colVals df 0))
          ((colVals df 0).dedup.length * st.resolution)),
      (linspace (listMin (colVals df 1)) (listMax (colVals df 1))
          ((colVals df 1).dedup.length * st.resolution)).map
        (fun yv => (linspace (listMin (colVals df 0)) (listMax (colVals df 0))
          ((colVals df 0).dedup.length * st.resolution)).map (fun _ => yv)),
      ?_, ?_, ?_, ?_, ?_, ?_, ?_⟩
  · simp only [make_xy_grid, h, hiloc0, hiloc1, hmin0, hmax0, hmin1, hmax1,
      bind, Except.bind, meshgrid]
  · simp [linspace_length]
  · simp [linspace_length]
  · intro row hrow
    obtain ⟨yv, _, hrw⟩ := List.mem_map.mp hrow
    rw [← hrw, linspace_length]
  · intro row hrow
    obtain ⟨yv, _, hrw⟩ := List.mem_map.mp hrow
    rw [← hrw]
    simp [linspace_length]
  · intro row hrow
    obtain ⟨yv, _, hrw⟩ := List.mem_map.mp hrow
    rw [← hrw]
    exact linspace_evenlySpaced _ _ _ hkn
  · have hxne : linspace (listMin (colVals df 0)) (listMax (colVals df 0))
        ((colVals df 0).dedup.length * st.resolution) ≠ [] := by
      intro hnil
      have hlen0 := linspace_length (listMin (colVals df 0)) (listMax (colVals df 0))
        ((colVals df 0).dedup.length * st.resolution)
      rw [hnil] at hlen0
      simp only [List.length_nil] at hlen0
      omega
    obtain ⟨x0, xs, hxs⟩ := List.exists_cons_of_ne_nil hxne
    rw [List.map_map]
    have hcomp : ∀ yv ∈ linspace (listMin (colVals df 1)) (listMax (colVals df 1))
        ((colVals df 1).dedup.length * st.resolution),
        ((fun row => row.getD 0 0) ∘ fun yv => (linspace (listMin (colVals df 0))
          (listMax (colVals df 0))
          ((colVals df 0).dedup.length * st.resolution)).map (fun _ => yv)) yv = id yv := by
      intro yv _
      simp [hxs]
    rw [List.map_congr_left hcomp, List.map_id]
    exact linspace_evenlySpaced _ _ _ hmn

/-- C1 (witness): loading the 3-point sample (2 distinct x, 2 distinct y)
at resolution 2 yields grids with 2·2 rows, each x row evenly spaced between
the observed x min and max. -/
theorem make_xy_grid_shape_witness :
    ∃ xg yg,
      make_xy_grid ⟨2, some sampleDf3, none, none⟩ =
        .ok { InterpolatedImage.mk 2 (some sampleDf3) none none with
              x_grid := some xg, y_grid := some yg } ∧
      xg.length = (colVals sampleDf3 1).dedup.length * 2 ∧
      (∀ row ∈ xg, evenlySpaced row (listMin (colVals sampleDf3 0))
        (listMax (colVals sampleDf3 0))) := by
  obtain ⟨xg, yg, hok, hlen, -, -, -, hes, -⟩ :=
    make_xy_grid_shape ⟨2, some sampleDf3, none, none⟩ sampleDf3 rfl
      (by decide) (by norm_num [sampleDf3]) (by norm_num) (by norm_num)
  exact ⟨xg, yg, hok, hlen, hes⟩

/-! ## C3/C4: the extension check of `set_filepath`

The code tests the suffix of `repr(filepath).replace("'", "")`, not of
`filepath` itself.  The lemmas below show the massaging cannot *create* a
`.csv` suffix: inside a single-quoted repr every character maps to itself
or to backslashes (`sqEscape`), and a double-quoted repr ends in `"`. -/

/-- The net effect, on one character, of escaping for a single-quoted repr
and then deleting apostrophes: backslash doubles, an apostrophe leaves its
escaping backslash behind, anything else is unchanged. -/
def sqEscape (c : Char) : List Char :=
  if c = '\\' then ['\\', '\\'] else if c = '\'' then ['\\'] else [c]

lemma reprEscape_filter (c : Char) :
    (reprEscape true c).filter (fun d => d ≠ '\'') = sqEscape c := by
  by_cases h1 : c = '\\' <;> by_cases h2 : c = '\'' <;>
    simp [reprEscape, sqEscape, h1, h2]

lemma filter_flatMap_reprEscape (l : List Char) :
    (l.flatMap (reprEscape true)).filter (fun d => d ≠ '\'') = l.flatMap sqEscape := by
  induction l with
  | nil => rfl
  | cons c t ih =>
    rw [List.flatMap_cons, List.flatMap_cons, List.filter_append, ih,
      reprEscape_filter]

lemma sqEscape_reverse (c : Char) : (sqEscape c).reverse = sqEscape c := by
  by_cases h1 : c = '\\' <;> by_cases h2 : c = '\'' <;> simp [sqEscape, h1, h2]

lemma flatMap_sqEscape_reverse (l : List Char) :
    (l.flatMap sqEscape).reverse = l.reverse.flatMap sqEscape := by
  induction l with
  | nil => rfl
  | cons c t ih =>
    simp [List.flatMap_cons, List.flatMap_append, ih, sqEscape_reverse]

lemma takeWhile_cons_out {p : Char → Bool} {l : List Char} {a : Char}
    {t : List Char} (h : l.takeWhile p = a :: t) :
    ∃ l', l = a :: l' ∧ p a = true ∧ l'.takeWhile p = t := by
  cases l with
  | nil => simp at h
  | cons b l' =>
    rw [List.takeWhile_cons] at h
    cases hb : p b with
    | false => simp [hb] at h
    | true =>
      simp only [hb, if_true] at h
      injection h with h1 h2
      subst h1
      exact ⟨l', rfl, hb, h2⟩

lemma flatMap_cons_out {rl : List Char} {c : Char} {tl : List Char}
    (h : rl.flatMap sqEscape = c :: tl) (hc : c ≠ '\\') :
    ∃ rl', rl = c :: rl' ∧ rl'.flatMap sqEscape = tl := by
  cases rl with
  | nil => simp at h
  | cons e rl' =>
    rw [List.flatMap_cons] at h
    by_cases h1 : e = '\\'
    · rw [h1, show sqEscape '\\' = ['\\', '\\'] from by decide] at h
      simp only [List.cons_append] at h
      injection h with h1' _
      exact absurd h1'.symm hc
    · by_cases h2 : e = '\''
      · rw [h2, show sqEscape '\'' = ['\\'] from by decide] at h
        simp only [List.cons_append, List.nil_append] at h
        injection h with h1' _
        exact absurd h1'.symm hc
      · rw [show sqEscape e = [e] by simp [sqEscape, h1, h2]] at h
        simp only [List.cons_append, List.nil_append] at h
        injection h with h1' h2'
        subst h1'
        exact ⟨rl', rfl, h2'⟩

/-- `pathSuffix s = ".csv"` exactly when the reversed final component starts
with `vsc.` and something nonempty precedes the dot. -/
lemma pathSuffix_eq_csv (s : List Char) :
    pathSuffix s = ['.', 'c', 's', 'v'] ↔
    ∃ rest, rest ≠ [] ∧
      s.reverse.takeWhile (fun c => c ≠ '/') = 'v' :: 's' :: 'c' :: '.' :: rest := by
  constructor
  · intro h
    simp only [pathSuffix] at h
    split at h
    · exact absurd h (by decide)
    · next hcond =>
      push_neg at hcond
      obtain ⟨hpre, hlen⟩ := hcond
      injection h with hdot h2
      have hpre3 : (s.reverse.takeWhile (fun c => c ≠ '/')).takeWhile
          (fun c => c ≠ '.') = ['v', 's', 'c'] := by
        have h3 := congrArg List.reverse h2
        simpa using h3
      obtain ⟨l1, he1, -, ht1⟩ := takeWhile_cons_out hpre3
      obtain ⟨l2, he2, -, ht2⟩ := takeWhile_cons_out ht1
      obtain ⟨l3, he3, -, ht3⟩ := takeWhile_cons_out ht2
      rw [hpre3] at hlen
      rw [he1, he2, he3] at hlen ⊢
      simp only [List.length_cons, List.length_nil] at hlen
      cases l3 with
      | nil => simp at hlen
      | cons d l4 =>
        have hd : d = '.' := by
          rw [List.takeWhile_cons] at ht3
          cases hq : decide (d ≠ '.') with
          | true => rw [hq] at ht3; simp at ht3
          | false => simpa using hq
        subst hd
        refine ⟨l4, ?_, rfl⟩
        intro hnil
        subst hnil
        simp at hlen
  · rintro ⟨rest, hne, hr⟩
    have htw : List.takeWhile (fun c : Char => c ≠ '.')
        ('v' :: 's' :: 'c' :: '.' :: rest) = ['v', 's', 'c'] := by
      simp [List.takeWhile_cons]
    simp only [pathSuffix]
    rw [hr, htw, if_neg]
    · rfl
    · push_neg
      refine ⟨by simp, ?_⟩
      have hpos : 0 < rest.length := List.length_pos.mpr hne
      simp only [List.length_cons, List.length_nil]
      omega

/-- The path massaging in `set_filepath` cannot manufacture a `.csv`
extension: if the massaged path has suffix `.csv`, so had the original. -/
lemma pyPathTransform_suffix (s : List Char)
    (h : pathSuffix (pyPathTransform s) = ['.', 'c', 's', 'v']) :
    pathSuffix s = ['.', 'c', 's', 'v'] := by
  rw [pyPathTransform, pyRepr] at h
  by_cases hbr : (s.contains '\'' && !s.contains '"') = true
  · rw [if_pos hbr] at h
    exfalso
    obtain ⟨rest, hne, hr⟩ := (pathSuffix_eq_csv _).mp h
    rw [stripApostrophes] at hr
    rw [show List.filter (fun c : Char => c ≠ '\'')
        ('"' :: (s.flatMap (reprEscape false) ++ ['"'])) =
        '"' :: ((s.flatMap (reprEscape false)).filter (fun c => c ≠ '\'') ++ ['"']) by
      simp [List.filter_append]] at hr
    rw [List.reverse_cons, List.reverse_append] at hr
    simp only [List.reverse_cons, List.reverse_nil, List.nil_append,
      List.cons_append, List.singleton_append] at hr
    obtain ⟨l1, he1, -, -⟩ := takeWhile_cons_out hr
    injection he1 with h1 htl1
    exact absurd h1 (by decide)
  · rw [if_neg hbr] at h
    have ht : stripApostrophes ('\'' :: (s.flatMap (reprEscape true) ++ ['\''])) =
        s.flatMap sqEscape := by
      rw [stripApostrophes, List.filter_cons, if_neg (by decide), List.filter_append,
        filter_flatMap_reprEscape,
        show List.filter (fun c : Char => c ≠ '\'') ['\''] = [] from by decide,
        List.append_nil]
    rw [ht] at h
    obtain ⟨rest, hne, hr⟩ := (pathSuffix_eq_csv _).mp h
    rw [flatMap_sqEscape_reverse] at hr
    obtain ⟨l1, hf1, -, htw1⟩ := takeWhile_cons_out hr
    obtain ⟨rl1, hrl1, hfm1⟩ := flatMap_cons_out hf1 (by decide)
    obtain ⟨l2, hf2, -, htw2⟩ := takeWhile_cons_out htw1
    have hfm1' : rl1.flatMap sqEscape = 's' :: l2 := by rw [hfm1, hf2]
    obtain ⟨rl2, hrl2, hfm2⟩ := flatMap_cons_out hfm1' (by decide)
    obtain ⟨l3, hf3, -, htw3⟩ := takeWhile_cons_out htw2
    have hfm2' : rl2.flatMap sqEscape = 'c' :: l3 := by rw [hfm2, hf3]
    obtain ⟨rl3, hrl3, hfm3⟩ := flatMap_cons_out hfm2' (by decide)
    obtain ⟨l4, hf4, -, htw4⟩ := takeWhile_cons_out htw3
    have hfm3' : rl3.flatMap sqEscape = '.' :: l4 := by rw [hfm3, hf4]
    obtain ⟨rl4, hrl4, hfm4⟩ := flatMap_cons_out hfm3' (by decide)
    cases rest with
    | nil => exact absurd rfl hne
    | cons r0 rest' =>
      obtain ⟨l5, hl5, hq0, -⟩ := takeWhile_cons_out htw4
      cases rl4 with
      | nil =>
        rw [List.flatMap_nil, hl5] at hfm4
        simp at hfm4
      | cons e rl5 =>
        by_cases he : e = '/'
        · exfalso
          subst he
          rw [List.flatMap_cons, hl5,
            show sqEscape '/' = ['/'] by decide] at hfm4
          simp only [List.cons_append, List.nil_append] at hfm4
          injection hfm4 with hr0 htl0
          rw [← hr0] at hq0
          exact absurd hq0 (by decide)
        · have hqe : (fun c : Char => decide (c ≠ '/')) e = true := by
            simpa using he
          apply (pathSuffix_eq_csv s).mpr
          have hsrev : s.reverse = 'v' :: 's' :: 'c' :: '.' :: e :: rl5 := by
            rw [hrl1, hrl2, hrl3, hrl4]
          refine ⟨e :: rl5.takeWhile (fun c => c ≠ '/'), List.cons_ne_nil _ _, ?_⟩
          rw [hsrev]
          simp [List.takeWhile_cons]
          exact he

/-- C3: for every filepath whose extension is not `.csv`, `set_filepath`
raises `NotCsvError` and leaves the state (in particular `original_data`,
`x_grid` and `y_grid`) unchanged; the result is the same for *every* reader
oracle, i.e. the file is neither read nor parsed. -/
theorem set_filepath_not_csv (st : InterpolatedImage)
    (reader : List Char → Option DataFrame) (filepath : List Char)
    (h : pathSuffix filepath ≠ ['.', 'c', 's', 'v']) :
    set_filepath st reader filepath = (st, some PyError.notCsvError) := by
  simp only [set_filepath]
  rw [if_pos]
  intro hcsv
  exact h (pyPathTransform_suffix filepath hcsv)

/-- C3 (witness): loading `a.txt` raises `NotCsvError` with the prior
(empty) state intact, whatever the filesystem holds. -/
theorem set_filepath_not_csv_witness :
    pathSuffix ['a', '.', 't', 'x', 't'] ≠ ['.', 'c', 's', 'v'] ∧
    set_filepath ⟨10, none, none, none⟩ (fun _ => none) ['a', '.', 't', 'x', 't'] =
      (⟨10, none, none, none⟩, some PyError.notCsvError) :=
  ⟨by decide,
    set_filepath_not_csv ⟨10, none, none, none⟩ (fun _ => none)
      ['a', '.', 't', 'x', 't'] (by decide)⟩

/-- C4 (counterexample): loading a `.csv` file whose table has only 2 usable
columns does *not* raise the input-format error — `set_filepath` completes
with no exception (the `iloc[:, -3:]` slice clips to the 2 available columns
and the grid is built from columns 0 and 1). -/
theorem set_filepath_two_columns_no_error :
    (set_filepath ⟨1, none, none, none⟩
      (fun _ => some ⟨2, [[0, 0], [1, 1], [0, 1]]⟩)
      ['t', '.', 'c', 's', 'v']).2 = none := by
  rfl

/-- C4 (amended): loading a `.csv` file whose table has only 2 usable columns
*succeeds*: the last-3-columns slice clips to the 2 available columns, the
grid is built from columns 0 and 1 and no exception is raised.  (The
IndexError the spec expects can only arise with fewer than 2 columns.) -/
theorem set_filepath_two_columns_ok (st : InterpolatedImage)
    (reader : List Char → Option DataFrame) (filepath : List Char) (df : DataFrame)
    (hs : pathSuffix (pyPathTransform filepath) = ['.', 'c', 's', 'v'])
    (hread : reader (pyPathTransform filepath) = some df)
    (hc : df.ncols = 2) (hr : df.rows ≠ []) :
    (set_filepath st reader filepath).2 = none ∧
    (set_filepath st reader filepath).1.original_data = some (ilocLast3 df) := by
  have hrows : (ilocLast3 df).rows ≠ [] := by
    simpa [ilocLast3] using hr
  have hnc : (ilocLast3 df).ncols = 2 := by simp [ilocLast3, hc]
  have hx0 : colVals (ilocLast3 df) 0 ≠ [] := by simpa [colVals] using hrows
  have hy0 : colVals (ilocLast3 df) 1 ≠ [] := by simpa [colVals] using hrows
  obtain ⟨a, t, hx⟩ := List.exists_cons_of_ne_nil hx0
  obtain ⟨b, u, hy⟩ := List.exists_cons_of_ne_nil hy0
  have hiloc0 : ilocCol (ilocLast3 df) 0 = .ok (colVals (ilocLast3 df) 0) := by
    rw [ilocCol, if_pos (by omega)]
  have hiloc1 : ilocCol (ilocLast3 df) 1 = .ok (colVals (ilocLast3 df) 1) := by
    rw [ilocCol, if_pos (by omega)]
  have hmin0 : npMin (colVals (ilocLast3 df) 0) =
      .ok (listMin (colVals (ilocLast3 df) 0)) := by rw [hx]; rfl
  have hmax0 : npMax (colVals (ilocLast3 df) 0) =
      .ok (listMax (colVals (ilocLast3 df) 0)) := by rw [hx]; rfl
  have hmin1 : npMin (colVals (ilocLast3 df) 1) =
      .ok (listMin (colVals (ilocLast3 df) 1)) := by rw [hy]; rfl
  have hmax1 : npMax (colVals (ilocLast3 df) 1) =
      .ok (listMax (colVals (ilocLast3 df) 1)) := by rw [hy]; rfl
  simp only [set_filepath]
  rw [if_neg (by simp [hs]), hread]
  simp only [make_xy_grid, hiloc0, hiloc1, hmin0, hmax0, hmin1, hmax1,
    bind, Except.bind]
  exact ⟨trivial, trivial⟩

/-- C4 (witness for the amended claim): a concrete 2-column `.csv` load
completes with the clipped 2-column frame stored. -/
theorem set_filepath_two_columns_ok_witness :
    (set_filepath ⟨1, none, none, none⟩
      (fun _ => some ⟨2, [[0, 0], [1, 1], [0, 1]]⟩) ['d', '.', 'c', 's', 'v']).2 = none ∧
    (set_filepath ⟨1, none, none, none⟩
      (fun _ => some ⟨2, [[0, 0], [1, 1], [0, 1]]⟩)
      ['d', '.', 'c', 's', 'v']).1.original_data =
      some (ilocLast3 ⟨2, [[0, 0], [1, 1], [0, 1]]⟩) :=
  set_filepath_two_columns_ok ⟨1, none, none, none⟩
    (fun _ => some ⟨2, [[0, 0], [1, 1], [0, 1]]⟩) ['d', '.', 'c', 's', 'v']
    ⟨2, [[0, 0], [1, 1], [0, 1]]⟩ (by decide) rfl rfl (by decide)

end SurfacePlot
